import Mathlib

/-!
Verification development for the M511 QR-code label-printer web application.

This file gives a shallow embedding of the program's bitmap encoders, wire
command builders, USB interface negotiation, Bluetooth reconnection handling
and print-dispatch guards, translated from `src/js/dataprocess.js`,
`src/js/printer-controller.js` and `src/js/usb-connection.js`, and proves
properties of those definitions.

JavaScript numeric conventions used by the embedding: pixel channel values are
naturals in `0..255`; the floating-point expressions `(r+g+b)/3`,
`0.299*r + 0.587*g + 0.114*b` and `Math.min(384/w, 300/h)` are modelled as
exact rationals (for the 8-bit inputs involved, double rounding never crosses
the comparison thresholds used by the code); `Math.round x` for nonnegative
`x` is `⌊x + 1/2⌋`; `Math.ceil(w/8)`, `x & 0xFF` and `x >> 8` on nonnegative
32-bit values are `(w+7)/8`, `x &&& 255` and `x >>> 8` on naturals.
-/

namespace M511

/-- A decoded RGBA raster as returned by `canvas.getImageData`: `width` and
`height` in pixels, and `data` the flat RGBA array, so
`data ((y*width + x)*4 + c)` is channel `c` (0 = R, 1 = G, 2 = B, 3 = A) of
the pixel at column `x`, row `y`. The backing array has `4*width*height`
entries; indices past that are never consulted by the guarded code paths. -/
structure ImageData where
  width : Nat
  height : Nat
  data : Nat → Nat

/-- The `Math.ceil(width / 8)` computation shared by `convertToBitmap`
(dataprocess.js line 47) and `convertToBradyBitmap` (printer-controller.js
line 745), on naturals. -/
def bytesPerRowOf (w : Nat) : Nat := (w + 7) / 8

/-! ### dataprocess.js - `processData.convertToBitmap` (lines 43-76) -/

/-- The grayscale value `(r + g + b) / 3` computed at dataprocess.js line 61,
as an exact rational. -/
def grayscaleAvg (r g b : Nat) : ℚ := (r + g + b : ℚ) / 3

/-- The ink test of dataprocess.js line 62: a pixel is black (bit = 1) iff its
average grayscale is strictly below 128. -/
def isBlackDP (img : ImageData) (x y : Nat) : Bool :=
  let i := (y * img.width + x) * 4
  decide (grayscaleAvg (img.data i) (img.data (i + 1)) (img.data (i + 2)) < 128)

/-- The running state of `convertToBitmap`'s packing loop (dataprocess.js
lines 50-52): bytes written so far, the current `bitIndex` and the partially
assembled `currentByte`. -/
structure PackState where
  out : List Nat
  bitIndex : Nat
  currentByte : Nat

/-- One iteration of the inner pixel loop of `convertToBitmap`
(dataprocess.js lines 55-73): OR the pixel's bit into `currentByte` at
position `7 - bitIndex`, then flush the byte when 8 bits have been packed or
the row's last pixel (`x == width - 1`) was just processed. -/
def packPixel (width x : Nat) (black : Bool) (s : PackState) : PackState :=
  let cb := s.currentByte ||| ((if black then 1 else 0) <<< (7 - s.bitIndex))
  if s.bitIndex + 1 = 8 ∨ x = width - 1 then
    { out := s.out ++ [cb], bitIndex := 0, currentByte := 0 }
  else
    { out := s.out, bitIndex := s.bitIndex + 1, currentByte := cb }

/-- The record returned by `convertToBitmap` (dataprocess.js line 75). -/
structure BitmapData where
  data : List Nat
  width : Nat
  height : Nat
  bytesPerRow : Nat

/-- The `convertToBitmap(ctx, width, height)` routine of dataprocess.js lines
43-76: scan the raster top-to-bottom, left-to-right, packing one bit per
pixel through `packPixel`. -/
def convertToBitmap (img : ImageData) : BitmapData :=
  let fin := (List.range img.height).foldl
    (fun s y => (List.range img.width).foldl
      (fun s x => packPixel img.width x (isBlackDP img x y) s) s)
    ⟨[], 0, 0⟩
  ⟨fin.out, img.width, img.height, bytesPerRowOf img.width⟩

/-- The `generateImageCommands(bitmapData)` routine of dataprocess.js lines
78-101: ESC @ initialize, the GS v 0 raster command with its mode byte, the
little-endian width-in-bytes and height header, the bitmap payload, then a
line feed as print-and-feed trigger. -/
def generateImageCommands (b : BitmapData) : List Nat :=
  [0x1B, 0x40] ++
  [0x1D, 0x76, 0x30, 0x00] ++
  [b.bytesPerRow &&& 0xFF, (b.bytesPerRow >>> 8) &&& 0xFF,
   b.height &&& 0xFF, (b.height >>> 8) &&& 0xFF] ++
  b.data ++
  [0x0A]

/-! ### printer-controller.js - monochrome conversion and the Brady stream -/

/-- The `Math.round(0.299*r + 0.587*g + 0.114*b)` computation of
`convertToMonochrome` (printer-controller.js line 810), carried out exactly
over integers scaled by 1000: for nonnegative arguments
`Math.round x = ⌊x + 1/2⌋`, hence `(299r + 587g + 114b + 500) / 1000` in
natural-number division. -/
def grayRound (r g b : Nat) : Nat := (299 * r + 587 * g + 114 * b + 500) / 1000

/-- The `convertToMonochrome(imageData)` routine of printer-controller.js
lines 790-825: every RGB channel of a pixel becomes 0 when the rounded
luminance is below 128 and 255 otherwise, and the alpha channel is copied
through unchanged. Note the source reads only R, G, B; alpha never enters
the luminance. -/
def convertToMonochrome (img : ImageData) : ImageData :=
  { width := img.width
    height := img.height
    data := fun i =>
      let p := 4 * (i / 4)
      if i % 4 = 3 then img.data i
      else if grayRound (img.data p) (img.data (p + 1)) (img.data (p + 2)) < 128 then 0
      else 255 }

/-- One payload byte of `convertToBradyBitmap` (printer-controller.js lines
758-772): for bit positions 0..7, pixel `x = byteX*8 + bit` contributes bit
`7 - bit` when it lies inside the image, its flat index lies inside the
monochrome data array (of length `4*width*height`), and its monochrome red
channel is below 128. -/
def bradyRowByte (mono : ImageData) (y byteX : Nat) : Nat :=
  (List.range 8).foldl
    (fun byte bit =>
      let x := byteX * 8 + bit
      if x < mono.width then
        let index := (y * mono.width + x) * 4
        if index < 4 * (mono.width * mono.height) then
          if mono.data index < 128 then byte ||| (1 <<< (7 - bit)) else byte
        else byte
      else byte)
    0

/-- The packed raster payload assembled by the row loop of
`convertToBradyBitmap` (printer-controller.js lines 757-774): rows
top-to-bottom, `bytesPerLine` bytes per row. -/
def bradyPayload (mono : ImageData) : List Nat :=
  ((List.range mono.height).map
    (fun y => (List.range (bytesPerRowOf mono.width)).map (bradyRowByte mono y))).flatten

/-- The `convertToBradyBitmap(imageData)` routine of printer-controller.js
lines 715-787, as the list of character codes of the command string it
builds: `none` models the error thrown at line 719 for an empty raster;
otherwise ESC @, ESC i G, the little-endian bytes-per-line and height
header, the packed payload, ESC i E and ESC i P, in the order the source
concatenates them. -/
def convertToBradyBitmap (img : ImageData) : Option (List Nat) :=
  if img.width = 0 ∨ img.height = 0 then none
  else
    let mono := convertToMonochrome img
    let bpl := bytesPerRowOf img.width
    some ([0x1B, 0x40] ++
      [0x1B, 0x69, 0x47] ++
      [bpl &&& 0xFF, (bpl >>> 8) &&& 0xFF, img.height &&& 0xFF, (img.height >>> 8) &&& 0xFF] ++
      bradyPayload mono ++
      [0x1B, 0x69, 0x45] ++
      [0x1B, 0x69, 0x50])

/-! ### printer-controller.js - the USB send path (lines 3133-3191) -/

/-- UTF-8 encoding of one UTF-16 code unit, as performed by
`new TextEncoder().encode(command)` in `sendUSBCommand`
(printer-controller.js line 3139). Code units below `0x80` are one byte,
below `0x800` two bytes, and the remaining (non-surrogate) units three
bytes; every command string built by this program only contains code units
below 256, so the surrogate replacement path never arises. -/
def utf8EncodeChar (c : Nat) : List Nat :=
  if c < 0x80 then [c]
  else if c < 0x800 then [0xC0 + c / 64, 0x80 + c % 64]
  else [0xE0 + c / 4096, 0x80 + c / 64 % 64, 0x80 + c % 64]

/-- The byte sequence `sendUSBCommand(command)` hands to
`USBDevice.transferOut` (printer-controller.js lines 3139 and 3180): the
UTF-8 encoding of the JavaScript command string, given as its list of UTF-16
code units. -/
def sendUSBCommandBytes (s : List Nat) : List Nat := s.flatMap utf8EncodeChar

/-! ### printer-controller.js - feed and cut fallback paths -/

/-- Character codes of the string sent by `feedLabel`'s direct-USB fallback
(printer-controller.js line 922): ESC J 10, feed 10 lines. -/
def feedFallbackStr : List Nat := [0x1B, 0x4A, 0x0A]

/-- Character codes of the string sent by `cutLabel`'s direct-USB fallback
(printer-controller.js line 1037): ESC i. -/
def cutFallbackStr : List Nat := [0x1B, 0x69]

/-- The command strings of `applyBridgeForFeedOperation`
(printer-controller.js lines 2522-2543), sent only when interface 1 is the
bound interface. -/
def bridgeFeedStrs : List (List Nat) :=
  [[0x1B, 0x42, 0x52, 0x49, 0x44, 0x47, 0x45, 0x46, 0x45, 0x45, 0x44],
   [0x1B, 0x31, 0x46, 0x3E, 0x30, 0x46],
   [0x1B, 0x41, 0x43, 0x54, 0x46, 0x45, 0x45, 0x44]]

/-- The command strings of `applyBridgeForCutOperation`
(printer-controller.js lines 2546-2567). -/
def bridgeCutStrs : List (List Nat) :=
  [[0x1B, 0x42, 0x52, 0x49, 0x44, 0x47, 0x45, 0x43, 0x55, 0x54],
   [0x1B, 0x31, 0x43, 0x3E, 0x30, 0x43],
   [0x1B, 0x41, 0x43, 0x54, 0x43, 0x55, 0x54]]

/-- The completion string `ESC FEEDCOMP` sent after a bridged feed
(printer-controller.js line 926). -/
def feedCompStr : List Nat := [0x1B, 0x46, 0x45, 0x45, 0x44, 0x43, 0x4F, 0x4D, 0x50]

/-- The completion string `ESC CUTCOMP` sent after a bridged cut
(printer-controller.js line 1041). -/
def cutCompStr : List Nat := [0x1B, 0x43, 0x55, 0x54, 0x43, 0x4F, 0x4D, 0x50]

/-- The ordered `transferOut` payloads produced by the direct-USB fallback
branch of `feedLabel` (printer-controller.js lines 912-933), which runs when
the vendor SDK exposes no usable `feed` method and `connectionType` is
`'usb'` with a device bound on interface `ifaceNum`: the interface-1 bridge
prelude and completion wrap the feed command only when `ifaceNum = 1`. -/
def feedLabelUSBFallbackWrites (ifaceNum : Nat) : List (List Nat) :=
  (if ifaceNum = 1 then bridgeFeedStrs.map sendUSBCommandBytes else []) ++
  [sendUSBCommandBytes feedFallbackStr] ++
  (if ifaceNum = 1 then [sendUSBCommandBytes feedCompStr] else [])

/-- The ordered `transferOut` payloads produced by the direct-USB fallback
branch of `cutLabel` (printer-controller.js lines 1027-1048), analogous to
the feed fallback. -/
def cutLabelUSBFallbackWrites (ifaceNum : Nat) : List (List Nat) :=
  (if ifaceNum = 1 then bridgeCutStrs.map sendUSBCommandBytes else []) ++
  [sendUSBCommandBytes cutFallbackStr] ++
  (if ifaceNum = 1 then [sendUSBCommandBytes cutCompStr] else [])

/-! ### usb-connection.js - `USBConnection.sendCommand` (lines 70-117) -/

/-- The commands accepted by `USBConnection.sendCommand`. -/
inductive USBCmd where
  | print
  | cut
  | feed
deriving DecidableEq

/-- The fixed wire bytes of `USBConnection.sendCommand` (usb-connection.js
lines 79-99) for the no-uploaded-file case: `print` is ESC @ followed by
GS k, `cut` is GS i 0, `feed` is GS L 0. -/
def usbConnCommandBytes : USBCmd → List Nat
  | .print => [0x1B, 0x40, 0x1D, 0x6B, 0x01, 0x00]
  | .cut => [0x1D, 0x69, 0x00]
  | .feed => [0x1D, 0x4C, 0x00]

/-! ### printer-controller.js - `connectDirectUSB` negotiation (lines 2010-2089) -/

/-- One USB interface as `connectDirectUSB` sees it: whether WebUSB reports
it currently claimed, whether a `claimInterface` call on it would succeed,
and how many OUT-direction endpoints it exposes. The endpoint count is
logged by the source (line 2057) but never tested. -/
structure IfaceInfo where
  claimed : Bool
  claimOk : Bool
  outEndpoints : Nat
deriving DecidableEq

/-- The interface-0 retry loop of `connectDirectUSB` (printer-controller.js
lines 2024-2046), with `a` the current attempt index and the last argument
the remaining iteration count (3 at entry). Returns the number of loop
iterations run, the list of backoff waits performed (in ms, in order) and
whether interface 0 was claimed: an unclaimed, claimable interface stops the
loop at once; an already-claimed interface waits `1000*(a+1)` ms; a failing
claim call waits `500*(a+1)` ms on the first two attempts. -/
def claim0Loop (d0 : IfaceInfo) : Nat → Nat → Nat × List Nat × Bool
  | _, 0 => (0, [], false)
  | a, n + 1 =>
    if d0.claimed = false then
      if d0.claimOk then (1, [], true)
      else
        let w := if a < 2 then [500 * (a + 1)] else []
        let r := claim0Loop d0 (a + 1) n
        (r.1 + 1, w ++ r.2.1, r.2.2)
    else
      let r := claim0Loop d0 (a + 1) n
      (r.1 + 1, 1000 * (a + 1) :: r.2.1, r.2.2)

/-- Whether the fallback scan of `connectDirectUSB` (lines 2051-2071) takes
interface `i`: the source requires only that the interface be unclaimed and
that the claim call succeed; endpoints are not consulted. -/
def scanTake (f : IfaceInfo) : Bool := !f.claimed && f.claimOk

/-- The ascending fallback scan over interfaces 1, 2, ... of
`connectDirectUSB` (lines 2054-2070). -/
def scanFallback (d : List IfaceInfo) : Option Nat :=
  (List.range d.length).find? fun i =>
    decide (1 ≤ i) && (match d[i]? with
      | some f => scanTake f
      | none => false)

/-- The whole interface negotiation of `connectDirectUSB`
(printer-controller.js lines 2010-2075): up to 3 attempts at interface 0,
then the ascending fallback scan. Returns the number of interface-0 loop
iterations, the backoff waits performed, and the claimed interface number
(`none` models the error thrown at line 2073). -/
def negotiate (d : List IfaceInfo) : Nat × List Nat × Option Nat :=
  let r := match d.head? with
    | some d0 => claim0Loop d0 0 3
    | none => (3, [], false)
  if r.2.2 then (r.1, r.2.1, some 0)
  else (r.1, r.2.1, scanFallback d)

/-! ### printer-controller.js - Bluetooth disconnection handling (lines 3448-3525) -/

/-- The controller fields involved in `handleBluetoothDisconnection`
(constructor lines 19-23 set `maxReconnectAttempts = 3` and
`reconnectionCooldown = 10000`). -/
structure BTState where
  reconnectAttempts : Nat
  maxReconnectAttempts : Nat
  lastDisconnectionTime : Nat
  reconnectionCooldown : Nat
  hasDevice : Bool
  reconnectBtnVisible : Bool
deriving DecidableEq

/-- The `handleBluetoothDisconnection` routine (printer-controller.js lines
3448-3489) as a state transition at wall-clock time `now` (ms, `now` at or
after the last recorded disconnection): returns the updated state together
with the scheduled reconnection delay in ms when one was scheduled. Inside
the cooldown window the drop is ignored; with attempts below the maximum and
a device available one attempt is scheduled after `5000 + attempts*2000` ms
(attempts counted after the increment); otherwise the attempt counter is
reset to zero and the manual reconnect button is shown. -/
def handleBluetoothDisconnection (now : Nat) (s : BTState) : BTState × Option Nat :=
  if now - s.lastDisconnectionTime < s.reconnectionCooldown then (s, none)
  else
    let s1 := { s with lastDisconnectionTime := now }
    if s1.reconnectAttempts < s1.maxReconnectAttempts ∧ s1.hasDevice then
      let s2 := { s1 with reconnectAttempts := s1.reconnectAttempts + 1 }
      (s2, some (5000 + s2.reconnectAttempts * 2000))
    else
      ({ s1 with reconnectAttempts := 0, reconnectBtnVisible := true }, none)

/-! ### printer-controller.js - connection state (lines 141-230, 2077-2089, 3279-3400) -/

/-- The three transports of the controller. -/
inductive Transport where
  | usb
  | bluetooth
  | network
deriving DecidableEq

/-- The process-wide connection flags of the controller together with the
channel handles it holds: `usbOpen` models a non-null opened `usbDevice`
with a claimed interface, `btConnected` a connected `bluetoothServer`. -/
structure ConnState where
  isConnected : Bool
  connectionType : Option Transport
  usbOpen : Bool
  btConnected : Bool
deriving DecidableEq

/-- The `updateConnectionStatus(connected, connectionType)` routine
(printer-controller.js lines 141-230): the single pair of process-wide
flags; disconnecting clears the transport label. -/
def updateConnectionStatus (connected : Bool) (ctype : Option Transport)
    (s : ConnState) : ConnState :=
  if connected then { s with isConnected := true, connectionType := ctype }
  else { s with isConnected := false, connectionType := none }

/-- The state effect of a successful `connectDirectUSB` (printer-controller.js
lines 2077-2089): store the opened, claimed USB device and mark the
connection. No Bluetooth handle is touched or released anywhere in
`connectUSB` or `connectDirectUSB`. -/
def connectDirectUSBOk (s : ConnState) : ConnState :=
  updateConnectionStatus true (some .usb) { s with usbOpen := true }

/-- The state effect of a successful manual `connectBluetooth`
(printer-controller.js lines 3279-3400): store the connected GATT server and
mark the connection. No USB handle is touched or released anywhere in
`connectBluetooth`. -/
def connectBluetoothOk (s : ConnState) : ConnState :=
  updateConnectionStatus true (some .bluetooth) { s with btConnected := true }

/-- The state effect of `disconnectUSB` (lines 3250-3276). -/
def disconnectUSBFn (s : ConnState) : ConnState :=
  updateConnectionStatus false none { s with usbOpen := false }

/-- The state effect of `disconnectBluetooth` (lines 3645-3670). -/
def disconnectBluetoothFn (s : ConnState) : ConnState :=
  updateConnectionStatus false none { s with btConnected := false }

/-- Number of transport channels whose handles are open. -/
def openChannels (s : ConnState) : Nat :=
  (if s.usbOpen then 1 else 0) + (if s.btConnected then 1 else 0)

/-- The controller's initial state (constructor lines 11-17). -/
def initialConnState : ConnState :=
  { isConnected := false, connectionType := none, usbOpen := false, btConnected := false }

/-! ### printer-controller.js - `printImage` precondition gate (lines 260-277) -/

/-- Outcome of the precondition gate at the top of `printImage`. -/
inductive PrintGateResult where
  | noFileError
  | notConnectedError
  | proceed
deriving DecidableEq

/-- Actions observable from `printImage`: a log line, or an attempt to reach
the printer through any transport (SDK call or USB transfer). -/
inductive PrintAction where
  | log
  | transportAttempt
deriving DecidableEq

/-- The precondition gate of `printImage` (printer-controller.js lines
260-277): the method first reads `getCurrentFile()` from the upload
collaborator and returns with an error log when it is null (the converted
image is not consulted by the gate; it is only used later to render
non-image files), then checks `isConnected` and returns with an error log
when false. Only after both checks does the method build the image and
attempt any transport, summarised here as a single `transportAttempt`
action. -/
def printImageActions (hasCurrentFile hasConvertedImage isConnected : Bool) :
    List PrintAction × PrintGateResult :=
  if hasCurrentFile = false then ([.log], .noFileError)
  else if isConnected = false then ([.log], .notConnectedError)
  else ([.log, .transportAttempt], .proceed)

/-! ### dataprocess.js - `convertImageToBitmap` scaling and compositing (lines 12-25) -/

/-- The scale factor `Math.min(maxWidth / img.width, maxHeight / img.height)`
of dataprocess.js line 16, with `maxWidth = 384`, `maxHeight = 300`, as an
exact rational (the source requires a decodable image, so `w, h > 0`). -/
def scaleFactor (w h : Nat) : ℚ := min ((384 : ℚ) / w) ((300 : ℚ) / h)

/-- The canvas dimensions of dataprocess.js lines 17-18:
`Math.floor(img.width * scale)` by `Math.floor(img.height * scale)`. -/
def scaledDims (w h : Nat) : Nat × Nat :=
  (((w : ℚ) * scaleFactor w h).floor.toNat, ((h : ℚ) * scaleFactor w h).floor.toNat)

/-- Source-over compositing of one channel of an RGBA pixel onto the opaque
white canvas produced by the `fillRect` at dataprocess.js lines 20-21. This
models the canvas collaborator the code invokes: with `α = a/255`, the
composited channel is `c*α + 255*(1-α)`. -/
def compositeOverWhite (c a : Nat) : ℚ := ((c : ℚ) * a + 255 * (255 - (a : ℚ))) / 255

/-! ### Specification-side definitions and abstract packing model

These follow the specification's words, for comparison against the
source-derived definitions above. -/

/-- Most-significant-bit-first packing of the first `k` pixels of 8-pixel
group `j` of a row with ink predicate `ink` (absolute pixel index): pixel
`8j + b` contributes bit `7 - b`. -/
def partialByte (ink : Nat → Bool) (j k : Nat) : Nat :=
  (List.range k).foldl
    (fun acc b => acc ||| ((if ink (8 * j + b) then 1 else 0) <<< (7 - b))) 0

/-- A fully packed byte: all 8 pixel positions of group `j`. -/
def packedByte (ink : Nat → Bool) (j : Nat) : Nat := partialByte ink j 8

/-- The width-guarded ink predicate of row `y` for the dataprocess encoder:
pixels at or beyond the image width are white. -/
def inkDP (img : ImageData) (y x : Nat) : Bool :=
  decide (x < img.width) && isBlackDP img x y

/-- The ink predicate of row `y` for the Brady encoder, with the source's
guards: inside the width, inside the data array, monochrome red channel
below 128. -/
def bradyInk (mono : ImageData) (y x : Nat) : Bool :=
  decide (x < mono.width) &&
    (decide ((y * mono.width + x) * 4 < 4 * (mono.width * mono.height)) &&
      decide (mono.data ((y * mono.width + x) * 4) < 128))

/-! ### Concrete inputs used by witnesses and counterexamples -/

/-- A 3-by-1 raster: black pixel, white pixel, black pixel (opaque). -/
def demoImg : ImageData :=
  { width := 3, height := 1
    data := fun i => if 4 ≤ i ∧ i < 8 then 255 else if i % 4 = 3 then 255 else 0 }

/-- The bitmap frame `convertToBitmap` produces from `demoImg`: one row of
one byte, 0xA0 (pixels black, white, black), width 3, height 1,
bytesPerRow 1. -/
def demoFrame : BitmapData :=
  { data := [0xA0], width := 3, height := 1, bytesPerRow := 1 }

/-- A 1-by-1 raster holding a single fully transparent pixel (all RGBA
channels 0), exactly what `ctx.clearRect` leaves on the canvas of
`printImageViaUSB` (printer-controller.js line 644). -/
def transparentPixelImg : ImageData :=
  { width := 1, height := 1, data := fun _ => 0 }

/-- A device whose interface 0 is stuck claimed and whose interface 1 is
free and claimable but exposes no OUT endpoint. -/
def noOutEndpointDevice : List IfaceInfo :=
  [{ claimed := true, claimOk := false, outEndpoints := 1 },
   { claimed := false, claimOk := true, outEndpoints := 0 }]

/-- The specification's negotiation scenario: interface 0 already claimed,
interface 1 free (with an OUT endpoint). -/
def busyPrimaryDevice : List IfaceInfo :=
  [{ claimed := true, claimOk := false, outEndpoints := 2 },
   { claimed := false, claimOk := true, outEndpoints := 1 }]

/-- A Bluetooth supervision state that has reached the maximum number of
reconnection attempts (constructor values `max = 3`, `cooldown = 10000`),
with a device still known. -/
def btAtMaxState : BTState :=
  { reconnectAttempts := 3, maxReconnectAttempts := 3, lastDisconnectionTime := 0
    reconnectionCooldown := 10000, hasDevice := true, reconnectBtnVisible := false }

/-! ## Bit-level packing lemmas -/

theorem testBit_one_eq (k : Nat) : Nat.testBit 1 k = decide (k = 0) := by
  cases k with
  | zero => simp
  | succ n => simp [Nat.testBit_succ]

theorem partialByte_zero (ink : Nat → Bool) (j : Nat) : partialByte ink j 0 = 0 := rfl

theorem partialByte_succ (ink : Nat → Bool) (j k : Nat) :
    partialByte ink j (k + 1)
      = partialByte ink j k ||| ((if ink (8 * j + k) then 1 else 0) <<< (7 - k)) := by
  unfold partialByte
  rw [List.range_succ, List.foldl_append]
  rfl

theorem partialByte_testBit (ink : Nat → Bool) (j : Nat) :
    ∀ k, k ≤ 8 → ∀ b, b < 8 →
      (partialByte ink j k).testBit (7 - b) = (decide (b < k) && ink (8 * j + b)) := by
  intro k
  induction k with
  | zero => intro _ b _; simp [partialByte_zero]
  | succ n ih =>
    intro hk b hb
    rw [partialByte_succ, Nat.testBit_or, ih (by omega) b hb, Nat.testBit_shiftLeft]
    by_cases hbn : b = n
    · subst hbn
      have h3 : 7 - b - (7 - b) = 0 := by omega
      cases hink : ink (8 * j + b) <;>
        simp [hink, testBit_one_eq, h3, Nat.lt_succ_self, Nat.lt_irrefl]
    · have hshift : (decide (7 - b ≥ 7 - n) &&
          (if ink (8 * j + n) then 1 else 0).testBit (7 - b - (7 - n))) = false := by
        rcases Nat.lt_or_ge b n with hlt | hge
        · have hnb : ¬ (7 - b - (7 - n) = 0) := by omega
          cases hink : ink (8 * j + n)
          · simp
          · simp [testBit_one_eq, hnb]
        · have : ¬ (7 - b ≥ 7 - n) := by omega
          simp [this]
      rw [hshift, Bool.or_false,
        show (decide (b < n)) = (decide (b < n + 1)) from by rw [decide_eq_decide]; omega]

theorem partialByte_testBit_high (ink : Nat → Bool) (j : Nat) :
    ∀ k t, 8 ≤ t → (partialByte ink j k).testBit t = false := by
  intro k
  induction k with
  | zero => intro t _; simp [partialByte_zero]
  | succ n ih =>
    intro t ht
    rw [partialByte_succ, Nat.testBit_or, ih t ht, Bool.false_or, Nat.testBit_shiftLeft]
    cases hink : ink (8 * j + n) <;> simp [testBit_one_eq] <;> omega

theorem packedByte_eq_partial_of_pad (ink : Nat → Bool) (j k : Nat) (hk : k ≤ 8)
    (hpad : ∀ b, k ≤ b → b < 8 → ink (8 * j + b) = false) :
    packedByte ink j = partialByte ink j k := by
  unfold packedByte
  apply Nat.eq_of_testBit_eq
  intro t
  rcases Nat.lt_or_ge t 8 with ht | ht
  · have hb : 7 - t < 8 := by omega
    have h7 : 7 - (7 - t) = t := by omega
    rw [← h7, partialByte_testBit ink j 8 (le_refl _) (7 - t) hb,
      partialByte_testBit ink j k hk (7 - t) hb]
    by_cases hlt : 7 - t < k
    · have : 7 - t < 8 := hb
      simp [hlt, this]
    · have hfalse := hpad (7 - t) (by omega) hb
      simp [hlt, hfalse]
  · rw [partialByte_testBit_high ink j 8 t ht, partialByte_testBit_high ink j k t ht]

/-! ## Row and payload structure lemmas -/

theorem rowFold_spec (w : Nat) (ink : Nat → Bool)
    (hpad : ∀ x, w ≤ x → ink x = false) :
    ∀ n x out, x + n = w → 0 < n →
      (List.range' x n).foldl (fun s q => packPixel w q (ink q) s)
          ⟨out, x % 8, partialByte ink (x / 8) (x % 8)⟩
        = ⟨out ++ (List.range' (x / 8) (bytesPerRowOf w - x / 8)).map (packedByte ink), 0, 0⟩ := by
  intro n
  induction n with
  | zero => intro x out _ h0; omega
  | succ n ih =>
    intro x out hxw _
    have hx8 : 8 * (x / 8) + x % 8 = x := Nat.div_add_mod x 8
    have hcb : partialByte ink (x / 8) (x % 8) ||| ((if ink x then 1 else 0) <<< (7 - x % 8))
        = partialByte ink (x / 8) (x % 8 + 1) := by
      rw [partialByte_succ, hx8]
    simp only [List.range'_succ, List.foldl_cons]
    rcases Nat.eq_zero_or_pos n with hn0 | hnpos
    · subst hn0
      have hxl : x = w - 1 := by omega
      have hstep : packPixel w x (ink x) ⟨out, x % 8, partialByte ink (x / 8) (x % 8)⟩
          = ⟨out ++ [partialByte ink (x / 8) (x % 8 + 1)], 0, 0⟩ := by
        simp only [packPixel]
        rw [if_pos (Or.inr hxl), hcb]
      rw [hstep]
      simp only [List.range'_zero, List.foldl_nil]
      have hbpr : bytesPerRowOf w - x / 8 = 1 := by unfold bytesPerRowOf; omega
      rw [hbpr]
      have hone : List.range' (x / 8) 1 = [x / 8] := rfl
      rw [hone, List.map_cons, List.map_nil]
      have hpk : packedByte ink (x / 8) = partialByte ink (x / 8) (x % 8 + 1) := by
        apply packedByte_eq_partial_of_pad ink (x / 8) (x % 8 + 1) (by omega)
        intro b hbl hbh
        exact hpad _ (by omega)
      rw [hpk]
    · have hxne : ¬ x = w - 1 := by omega
      by_cases h8 : x % 8 + 1 = 8
      · have hstep : packPixel w x (ink x) ⟨out, x % 8, partialByte ink (x / 8) (x % 8)⟩
            = ⟨out ++ [partialByte ink (x / 8) (x % 8 + 1)], 0, 0⟩ := by
          simp only [packPixel]
          rw [if_pos (Or.inl h8), hcb]
        rw [hstep]
        have hmod : (x + 1) % 8 = 0 := by omega
        have hdiv : (x + 1) / 8 = x / 8 + 1 := by omega
        have ihres := ih (x + 1) (out ++ [partialByte ink (x / 8) (x % 8 + 1)]) (by omega) hnpos
        rw [hmod, hdiv, partialByte_zero] at ihres
        rw [ihres]
        have hpk : partialByte ink (x / 8) (x % 8 + 1) = packedByte ink (x / 8) := by
          rw [h8]; rfl
        have hsplit : bytesPerRowOf w - x / 8 = (bytesPerRowOf w - (x / 8 + 1)) + 1 := by
          unfold bytesPerRowOf; omega
        rw [hpk, hsplit, List.range'_succ, List.map_cons]
        simp
      · have hstep : packPixel w x (ink x) ⟨out, x % 8, partialByte ink (x / 8) (x % 8)⟩
            = ⟨out, x % 8 + 1, partialByte ink (x / 8) (x % 8 + 1)⟩ := by
          simp only [packPixel]
          rw [if_neg (not_or.mpr ⟨h8, hxne⟩), hcb]
        rw [hstep]
        have hmod : (x + 1) % 8 = x % 8 + 1 := by omega
        have hdiv : (x + 1) / 8 = x / 8 := by omega
        have ihres := ih (x + 1) out (by omega) hnpos
        rw [hmod, hdiv] at ihres
        rw [ihres]

theorem rowFold_inner (img : ImageData) (y : Nat) (out : List Nat) :
    (List.range img.width).foldl
        (fun s x => packPixel img.width x (isBlackDP img x y) s) ⟨out, 0, 0⟩
      = ⟨out ++ (List.range (bytesPerRowOf img.width)).map (packedByte (inkDP img y)), 0, 0⟩ := by
  have hext : (List.range img.width).foldl
        (fun s x => packPixel img.width x (isBlackDP img x y) s) ⟨out, 0, 0⟩
      = (List.range img.width).foldl
        (fun s x => packPixel img.width x (inkDP img y x) s) ⟨out, 0, 0⟩ := by
    apply List.foldl_ext
    intro s x hx
    have hxw : x < img.width := List.mem_range.mp hx
    unfold inkDP
    simp [hxw]
  rw [hext]
  rcases Nat.eq_zero_or_pos img.width with hw0 | hwpos
  · rw [hw0]
    simp [bytesPerRowOf]
  · have hpad : ∀ x, img.width ≤ x → inkDP img y x = false := by
      intro x hx
      unfold inkDP
      simp only [Bool.and_eq_false_iff, decide_eq_false_iff_not]
      left; omega
    have h := rowFold_spec img.width (inkDP img y) hpad img.width 0 out (by omega) hwpos
    simp only [List.range_eq_range']
    simpa [partialByte_zero] using h

theorem rowsFold_spec (img : ImageData) :
    ∀ k y out,
      (List.range' y k).foldl
          (fun s yy => (List.range img.width).foldl
            (fun s x => packPixel img.width x (isBlackDP img x yy) s) s)
          ⟨out, 0, 0⟩
        = ⟨out ++ ((List.range' y k).map
            (fun yy => (List.range (bytesPerRowOf img.width)).map
              (packedByte (inkDP img yy)))).flatten, 0, 0⟩ := by
  intro k
  induction k with
  | zero => intro y out; simp
  | succ k ih =>
    intro y out
    rw [List.range'_succ, List.foldl_cons, rowFold_inner img y out, ih (y + 1) _,
      List.map_cons, List.flatten_cons, ← List.append_assoc]

theorem convertToBitmap_data_eq (img : ImageData) :
    (convertToBitmap img).data
      = ((List.range img.height).map
          (fun y => (List.range (bytesPerRowOf img.width)).map
            (packedByte (inkDP img y)))).flatten := by
  unfold convertToBitmap
  rw [List.range_eq_range' img.height]
  rw [rowsFold_spec img img.height 0 []]
  simp

theorem map_range_getD (f : Nat → Nat) (n j : Nat) (h : j < n) (d : Nat) :
    ((List.range n).map f).getD j d = f j := by
  simp [List.getD_eq_getElem?_getD, List.getElem?_range h]

theorem flatten_uniform_length {α : Type} (L : Nat → List α) (len : Nat)
    (hlen : ∀ y, (L y).length = len) :
    ∀ k s, (((List.range' s k).map L).flatten).length = k * len := by
  intro k
  induction k with
  | zero => intro s; simp
  | succ k ih =>
    intro s
    rw [List.range'_succ, List.map_cons, List.flatten_cons, List.length_append,
      hlen, ih (s + 1)]
    ring

theorem flatten_uniform_getD (L : Nat → List Nat) (len : Nat)
    (hlen : ∀ y, (L y).length = len) (d : Nat) :
    ∀ k s y j, y < k → j < len →
      (((List.range' s k).map L).flatten).getD (y * len + j) d = (L (s + y)).getD j d := by
  intro k
  induction k with
  | zero => intro s y j hy _; omega
  | succ k ih =>
    intro s y j hy hj
    rw [List.range'_succ, List.map_cons, List.flatten_cons]
    cases y with
    | zero =>
      have hjlen : j < (L s).length := by rw [hlen]; exact hj
      rw [show 0 * len + j = j by omega, List.getD_eq_getElem?_getD,
        List.getElem?_append_left hjlen, ← List.getD_eq_getElem?_getD,
        Nat.add_zero]
    | succ y =>
      have hstep : (y + 1) * len + j = (L s).length + (y * len + j) := by
        rw [hlen]; ring
      rw [List.getD_eq_getElem?_getD, hstep,
        List.getElem?_append_right (by omega),
        Nat.add_sub_cancel_left, ← List.getD_eq_getElem?_getD,
        ih (s + 1) y j (by omega) hj,
        show s + 1 + y = s + (y + 1) by omega]

theorem convertToBitmap_length (img : ImageData) :
    (convertToBitmap img).data.length = img.height * bytesPerRowOf img.width := by
  rw [convertToBitmap_data_eq]
  simp only [List.range_eq_range']
  apply flatten_uniform_length
  intro y
  simp

theorem convertToBitmap_getD (img : ImageData) (y j : Nat)
    (hy : y < img.height) (hj : j < bytesPerRowOf img.width) :
    (convertToBitmap img).data.getD (y * bytesPerRowOf img.width + j) 0
      = packedByte (inkDP img y) j := by
  rw [convertToBitmap_data_eq, List.range_eq_range' img.height]
  have h := flatten_uniform_getD
    (fun yy => (List.range (bytesPerRowOf img.width)).map (packedByte (inkDP img yy)))
    (bytesPerRowOf img.width) (fun yy => by simp) 0 img.height 0 y j hy hj
  rw [h, Nat.zero_add]
  exact map_range_getD _ _ j hj 0

theorem bradyRowByte_eq (mono : ImageData) (y byteX : Nat) :
    bradyRowByte mono y byteX = packedByte (bradyInk mono y) byteX := by
  unfold bradyRowByte packedByte partialByte
  apply List.foldl_ext
  intro acc b hb
  have hcomm : 8 * byteX + b = byteX * 8 + b := by ring
  rw [hcomm]
  by_cases h1 : byteX * 8 + b < mono.width
  · by_cases h2 : (y * mono.width + (byteX * 8 + b)) * 4 < 4 * (mono.width * mono.height)
    · by_cases h3 : mono.data ((y * mono.width + (byteX * 8 + b)) * 4) < 128
      · simp [bradyInk, h1, h2, h3]
      · simp [bradyInk, h1, h2, h3]
    · simp [bradyInk, h1, h2]
  · simp [bradyInk, h1]

theorem bradyPayload_length (mono : ImageData) :
    (bradyPayload mono).length = mono.height * bytesPerRowOf mono.width := by
  unfold bradyPayload
  simp only [List.range_eq_range']
  apply flatten_uniform_length
  intro y
  simp

theorem bradyPayload_getD (mono : ImageData) (y j : Nat)
    (hy : y < mono.height) (hj : j < bytesPerRowOf mono.width) :
    (bradyPayload mono).getD (y * bytesPerRowOf mono.width + j) 0
      = packedByte (bradyInk mono y) j := by
  unfold bradyPayload
  rw [List.range_eq_range' mono.height]
  have h := flatten_uniform_getD
    (fun yy => (List.range (bytesPerRowOf mono.width)).map (bradyRowByte mono yy))
    (bytesPerRowOf mono.width) (fun yy => by simp) 0 mono.height 0 y j hy hj
  rw [h, Nat.zero_add, map_range_getD _ _ j hj 0, bradyRowByte_eq]

theorem bradyInk_in_bounds (mono : ImageData) (y x : Nat)
    (hy : y < mono.height) (hx : x < mono.width) :
    bradyInk mono y x = decide (mono.data ((y * mono.width + x) * 4) < 128) := by
  have h1 : y * mono.width + x < mono.width * mono.height := by
    calc y * mono.width + x < y * mono.width + mono.width := by omega
      _ = (y + 1) * mono.width := by ring
      _ ≤ mono.height * mono.width := Nat.mul_le_mul_right _ (by omega)
      _ = mono.width * mono.height := by ring
  have hidx : (y * mono.width + x) * 4 < 4 * (mono.width * mono.height) := by omega
  simp [bradyInk, hx, hidx]

theorem convertToMonochrome_width (img : ImageData) :
    (convertToMonochrome img).width = img.width := rfl

theorem convertToMonochrome_height (img : ImageData) :
    (convertToMonochrome img).height = img.height := rfl

/-! ## Arithmetic helper lemmas -/

theorem and_255_eq_mod (x : Nat) : x &&& 0xFF = x % 256 := by
  have h := Nat.and_pow_two_sub_one_eq_mod x 8
  norm_num at h
  exact h

theorem shiftRight8_eq (x : Nat) : x >>> 8 = x / 256 := by
  rw [Nat.shiftRight_eq_div_pow]

theorem bytesPerRowOf_eq_ceil (w : Nat) :
    (bytesPerRowOf w : ℤ) = ⌈(w : ℚ) / 8⌉ := by
  have hlo : w ≤ 8 * bytesPerRowOf w := by unfold bytesPerRowOf; omega
  have hhi : 8 * bytesPerRowOf w < w + 8 := by unfold bytesPerRowOf; omega
  rw [eq_comm, Int.ceil_eq_iff]
  constructor
  · rw [lt_div_iff (by norm_num : (0 : ℚ) < 8)]
    push_cast
    have : (8 * bytesPerRowOf w : ℚ) < (w : ℚ) + 8 := by exact_mod_cast hhi
    linarith
  · rw [div_le_iff (by norm_num : (0 : ℚ) < 8)]
    push_cast
    have : (w : ℚ) ≤ (8 * bytesPerRowOf w : ℚ) := by exact_mod_cast hlo
    linarith

/-! ## Claim theorems -/

/-- Counterexample to C1 as stated: `generateImageCommands` (dataprocess.js
lines 78-101), the second builder the claim covers, emits after the packed
payload only the single print-and-feed byte 0x0A. On the concrete frame
`demoFrame` the whole suffix after the 1-byte payload (which ends at index
11) is `[0x0A]`, so the stream does not contain a graphics-mode-exit
sequence followed by a print-trigger sequence: the claimed six-part order is
not bit-exact for this builder. -/
theorem claim1_counterexample :
    generateImageCommands demoFrame
      = [0x1B, 0x40, 0x1D, 0x76, 0x30, 0x00, 0x01, 0x00, 0x01, 0x00, 0xA0, 0x0A] ∧
    (generateImageCommands demoFrame).drop 11 = [0x0A] ∧
    (generateImageCommands demoFrame).length = 12 := by decide

/-- Claim C1 (amended): the two command-stream builders have fixed,
bit-exact layouts, but only the Brady builder has the full six-part order.
For every non-empty raster, `convertToBradyBitmap` emits, in this exact
order: initialize ESC @, graphics-mode-enter ESC i G, the 4-byte
little-endian dimension header (bytesPerRow low byte, bytesPerRow high byte,
height low byte, height high byte), the full packed payload,
graphics-mode-exit ESC i E, and print-trigger ESC i P (payload plus 15
fixed bytes). For every bitmap frame, `generateImageCommands` emits:
initialize ESC @, the raster-image command with its mode byte GS v 0 0, the
same 4-byte little-endian dimension header, the full payload, then the
single print-and-feed trigger byte 0x0A - with no graphics-mode-exit
sequence (payload plus 11 fixed bytes). -/
theorem claim1_command_stream_layouts (img : ImageData) (b : BitmapData)
    (hw : 0 < img.width) (hh : 0 < img.height) :
    (∃ s, convertToBradyBitmap img = some s ∧
      s.length = 15 + bytesPerRowOf img.width * img.height ∧
      s.take 2 = [0x1B, 0x40] ∧
      (s.drop 2).take 3 = [0x1B, 0x69, 0x47] ∧
      (s.drop 5).take 4
        = [bytesPerRowOf img.width % 256, bytesPerRowOf img.width / 256 % 256,
           img.height % 256, img.height / 256 % 256] ∧
      (s.drop 9).take (bytesPerRowOf img.width * img.height)
        = bradyPayload (convertToMonochrome img) ∧
      s.drop (9 + bytesPerRowOf img.width * img.height)
        = [0x1B, 0x69, 0x45, 0x1B, 0x69, 0x50]) ∧
    ((generateImageCommands b).length = 11 + b.data.length ∧
      (generateImageCommands b).take 2 = [0x1B, 0x40] ∧
      ((generateImageCommands b).drop 2).take 4 = [0x1D, 0x76, 0x30, 0x00] ∧
      ((generateImageCommands b).drop 6).take 4
        = [b.bytesPerRow % 256, b.bytesPerRow / 256 % 256,
           b.height % 256, b.height / 256 % 256] ∧
      ((generateImageCommands b).drop 10).take b.data.length = b.data ∧
      (generateImageCommands b).drop (10 + b.data.length) = [0x0A]) := by
  constructor
  · have hcond : ¬ (img.width = 0 ∨ img.height = 0) := by omega
    have hplen : (bradyPayload (convertToMonochrome img)).length
        = bytesPerRowOf img.width * img.height := by
      rw [bradyPayload_length, convertToMonochrome_width, convertToMonochrome_height,
        Nat.mul_comm]
    refine ⟨[0x1B, 0x40] ++ [0x1B, 0x69, 0x47] ++
        [bytesPerRowOf img.width &&& 0xFF, (bytesPerRowOf img.width >>> 8) &&& 0xFF,
         img.height &&& 0xFF, (img.height >>> 8) &&& 0xFF] ++
        bradyPayload (convertToMonochrome img) ++
        [0x1B, 0x69, 0x45] ++ [0x1B, 0x69, 0x50], ?_, ?_, ?_, ?_, ?_, ?_, ?_⟩
    · unfold convertToBradyBitmap
      rw [if_neg hcond]
    · simp only [List.length_append, hplen, List.length_cons, List.length_nil]
      omega
    · rfl
    · rfl
    · show [bytesPerRowOf img.width &&& 0xFF, (bytesPerRowOf img.width >>> 8) &&& 0xFF,
          img.height &&& 0xFF, (img.height >>> 8) &&& 0xFF] = _
      simp only [and_255_eq_mod, shiftRight8_eq]
    · simp only [List.append_assoc]
      show (bradyPayload (convertToMonochrome img) ++ [0x1B, 0x69, 0x45, 0x1B, 0x69, 0x50]).take
          (bytesPerRowOf img.width * img.height) = _
      exact List.take_left' hplen
    · rw [← List.drop_drop]
      simp only [List.append_assoc]
      show (bradyPayload (convertToMonochrome img) ++ [0x1B, 0x69, 0x45, 0x1B, 0x69, 0x50]).drop
          (bytesPerRowOf img.width * img.height) = _
      exact List.drop_left' hplen
  · refine ⟨?_, rfl, rfl, ?_, ?_, ?_⟩
    · unfold generateImageCommands
      simp only [List.length_append, List.length_cons, List.length_nil]
      omega
    · show [b.bytesPerRow &&& 0xFF, (b.bytesPerRow >>> 8) &&& 0xFF,
          b.height &&& 0xFF, (b.height >>> 8) &&& 0xFF] = _
      simp only [and_255_eq_mod, shiftRight8_eq]
    · show (b.data ++ [0x0A]).take b.data.length = _
      exact List.take_left b.data [0x0A]
    · rw [← List.drop_drop]
      show (b.data ++ [0x0A]).drop b.data.length = _
      exact List.drop_left b.data [0x0A]

/-- Witness for the amended C1 at the concrete 3-by-1 raster `demoImg` and
the concrete frame `demoFrame`. -/
theorem claim1_command_stream_layouts_witness :
    (∃ s, convertToBradyBitmap demoImg = some s ∧
      s.length = 15 + bytesPerRowOf demoImg.width * demoImg.height ∧
      s.take 2 = [0x1B, 0x40] ∧
      (s.drop 2).take 3 = [0x1B, 0x69, 0x47] ∧
      (s.drop 5).take 4
        = [bytesPerRowOf demoImg.width % 256, bytesPerRowOf demoImg.width / 256 % 256,
           demoImg.height % 256, demoImg.height / 256 % 256] ∧
      (s.drop 9).take (bytesPerRowOf demoImg.width * demoImg.height)
        = bradyPayload (convertToMonochrome demoImg) ∧
      s.drop (9 + bytesPerRowOf demoImg.width * demoImg.height)
        = [0x1B, 0x69, 0x45, 0x1B, 0x69, 0x50]) ∧
    ((generateImageCommands demoFrame).length = 11 + demoFrame.data.length ∧
      (generateImageCommands demoFrame).take 2 = [0x1B, 0x40] ∧
      ((generateImageCommands demoFrame).drop 2).take 4 = [0x1D, 0x76, 0x30, 0x00] ∧
      ((generateImageCommands demoFrame).drop 6).take 4
        = [demoFrame.bytesPerRow % 256, demoFrame.bytesPerRow / 256 % 256,
           demoFrame.height % 256, demoFrame.height / 256 % 256] ∧
      ((generateImageCommands demoFrame).drop 10).take demoFrame.data.length
        = demoFrame.data ∧
      (generateImageCommands demoFrame).drop (10 + demoFrame.data.length) = [0x0A]) :=
  claim1_command_stream_layouts demoImg demoFrame (by decide) (by decide)

/-- Claim C2: for every raster of width W and height H, `bytesPerRow` is
`⌈W/8⌉`, both encoders produce exactly `bytesPerRow * H` payload bytes, each
payload byte holds 8 horizontal pixels most-significant-bit first, and bits
of a final partial byte beyond the image width are 0 (white). -/
theorem claim2_raster_encoding (img : ImageData) :
    ((convertToBitmap img).bytesPerRow : ℤ) = ⌈(img.width : ℚ) / 8⌉ ∧
    (convertToBitmap img).data.length = (convertToBitmap img).bytesPerRow * img.height ∧
    (bradyPayload (convertToMonochrome img)).length
      = bytesPerRowOf img.width * img.height ∧
    (∀ y j b, y < img.height → j < bytesPerRowOf img.width → b < 8 →
      ((convertToBitmap img).data.getD (y * bytesPerRowOf img.width + j) 0).testBit (7 - b)
        = (decide (8 * j + b < img.width) && isBlackDP img (8 * j + b) y)) ∧
    (∀ y j b, y < img.height → j < bytesPerRowOf img.width → b < 8 →
      ((bradyPayload (convertToMonochrome img)).getD
          (y * bytesPerRowOf img.width + j) 0).testBit (7 - b)
        = (decide (8 * j + b < img.width) &&
            decide ((convertToMonochrome img).data ((y * img.width + (8 * j + b)) * 4) < 128))) := by
  refine ⟨bytesPerRowOf_eq_ceil img.width, ?_, ?_, ?_, ?_⟩
  · exact (convertToBitmap_length img).trans (Nat.mul_comm _ _)
  · rw [bradyPayload_length, convertToMonochrome_width, convertToMonochrome_height,
      Nat.mul_comm]
  · intro y j b hy hj hb
    rw [convertToBitmap_getD img y j hy hj]
    unfold packedByte
    rw [partialByte_testBit _ j 8 le_rfl b hb]
    have hb8 : decide (b < 8) = true := by simp [hb]
    rw [hb8, Bool.true_and]
    rfl
  · intro y j b hy hj hb
    have hgd := bradyPayload_getD (convertToMonochrome img) y j hy hj
    rw [convertToMonochrome_width] at hgd
    rw [hgd]
    unfold packedByte
    rw [partialByte_testBit _ j 8 le_rfl b hb]
    have hb8 : decide (b < 8) = true := by simp [hb]
    rw [hb8, Bool.true_and]
    by_cases hx : 8 * j + b < img.width
    · have hib := bradyInk_in_bounds (convertToMonochrome img) y (8 * j + b) hy hx
      rw [convertToMonochrome_width] at hib
      rw [hib]
      simp [hx]
    · simp [bradyInk, convertToMonochrome_width, hx]

/-- Witness for C2 at the concrete 3-by-1 raster `demoImg`: 1 byte of
payload, whose top bit encodes the black leftmost pixel. -/
theorem claim2_raster_encoding_witness :
    (convertToBitmap demoImg).data.length
      = (convertToBitmap demoImg).bytesPerRow * demoImg.height ∧
    ((convertToBitmap demoImg).data.getD (0 * bytesPerRowOf demoImg.width + 0) 0).testBit (7 - 0)
      = (decide (8 * 0 + 0 < demoImg.width) && isBlackDP demoImg (8 * 0 + 0) 0) :=
  ⟨(claim2_raster_encoding demoImg).2.1,
   (claim2_raster_encoding demoImg).2.2.2.1 0 0 0 (by decide) (by decide) (by decide)⟩

/-- Counterexample to C4 as stated: the `USBConnection.sendCommand` helper
sends GS-based sequences, not the claimed ESC-based ones: its feed command
is 0x1D 0x4C 0x00 and its cut command is 0x1D 0x69 0x00. -/
theorem claim4_counterexample :
    usbConnCommandBytes .feed = [0x1D, 0x4C, 0x00] ∧
    usbConnCommandBytes .feed ≠ [0x1B, 0x4A, 0x0A] ∧
    usbConnCommandBytes .cut = [0x1D, 0x69, 0x00] ∧
    usbConnCommandBytes .cut ≠ [0x1B, 0x69] := by decide

/-- Claim C4 (amended): in printer-controller's direct-USB fallback paths
with the primary interface 0 bound, the cut command is exactly 0x1B 0x69 and
the feed command is exactly 0x1B 0x4A 0x0A, each written exactly once to the
out-endpoint (byte-identical after UTF-8 since every byte is below 0x80);
the separate `USBConnection.sendCommand` helper instead uses 0x1D 0x69 0x00
for cut and 0x1D 0x4C 0x00 for feed. -/
theorem claim4_feed_cut_commands :
    feedLabelUSBFallbackWrites 0 = [[0x1B, 0x4A, 0x0A]] ∧
    cutLabelUSBFallbackWrites 0 = [[0x1B, 0x69]] ∧
    usbConnCommandBytes .feed = [0x1D, 0x4C, 0x00] ∧
    usbConnCommandBytes .cut = [0x1D, 0x69, 0x00] := by decide

/-! ## UTF-8 wire-encoding lemmas (claim C5) -/

theorem utf8EncodeChar_of_lt (c : Nat) (h : c < 128) : utf8EncodeChar c = [c] := by
  unfold utf8EncodeChar
  rw [if_pos h]

theorem utf8EncodeChar_length_two (c : Nat) (h1 : 128 ≤ c) (h2 : c < 2048) :
    (utf8EncodeChar c).length = 2 := by
  unfold utf8EncodeChar
  rw [if_neg (by omega), if_pos h2]
  rfl

theorem sendUSBCommandBytes_length (s : List Nat) (h : ∀ c ∈ s, c < 2048) :
    (sendUSBCommandBytes s).length
      = s.length + s.countP (fun c => decide (128 ≤ c)) := by
  induction s with
  | nil => rfl
  | cons c t ih =>
    unfold sendUSBCommandBytes at ih ⊢
    rw [List.flatMap_cons, List.length_append,
      ih (fun x hx => h x (List.mem_cons_of_mem _ hx)), List.countP_cons]
    by_cases hc : 128 ≤ c
    · rw [utf8EncodeChar_length_two c hc (h c (List.mem_cons_self _ _))]
      simp only [hc, decide_eq_true_eq, if_pos]
      simp [List.length_cons]
      omega
    · rw [utf8EncodeChar_of_lt c (by omega)]
      simp only [hc, decide_eq_true_eq, if_neg]
      simp [List.length_cons]
      omega

theorem sendUSBCommandBytes_id (s : List Nat) (h : ∀ c ∈ s, c < 128) :
    sendUSBCommandBytes s = s := by
  induction s with
  | nil => rfl
  | cons c t ih =>
    unfold sendUSBCommandBytes at ih ⊢
    rw [List.flatMap_cons, utf8EncodeChar_of_lt c (h c (List.mem_cons_self _ _)),
      ih (fun x hx => h x (List.mem_cons_of_mem _ hx))]
    rfl

/-- Claim C5: the USB send path transmits the UTF-8 encoding of the command
string, so the wire bytes equal the constructed command stream exactly when
every code unit is below 0x80; every code unit in 0x80..0xFF (such as the
0xFF bytes of an all-black bitmap row) becomes two bytes on the wire, one
extra byte per high code unit. -/
theorem claim5_utf8_wire (s : List Nat) (hs : ∀ c ∈ s, c < 256) :
    (sendUSBCommandBytes s = s ↔ ∀ c ∈ s, c < 128) ∧
    (∀ c, 128 ≤ c → c < 256 → (utf8EncodeChar c).length = 2) ∧
    (sendUSBCommandBytes s).length
      = s.length + s.countP (fun c => decide (128 ≤ c)) := by
  have hlen := sendUSBCommandBytes_length s (fun c hc => by have := hs c hc; omega)
  refine ⟨⟨?_, sendUSBCommandBytes_id s⟩,
    fun c h1 h2 => utf8EncodeChar_length_two c h1 (by omega), hlen⟩
  intro heq c hc
  have hcount : s.countP (fun c => decide (128 ≤ c)) = 0 := by
    have hl := congrArg List.length heq
    rw [hlen] at hl
    omega
  have := List.countP_eq_zero.mp hcount c hc
  simp only [decide_eq_true_eq] at this
  omega

/-- Witness for C5 on the two-code-unit command `[0x1B, 0xFF]`: it is not
transmitted byte-identically, and 0xFF occupies two wire bytes. -/
theorem claim5_utf8_wire_witness :
    ((sendUSBCommandBytes [0x1B, 0xFF] = [0x1B, 0xFF]) ↔ ∀ c ∈ [0x1B, 0xFF], c < 128) ∧
    (utf8EncodeChar 0xFF).length = 2 :=
  ⟨(claim5_utf8_wire [0x1B, 0xFF] (by decide)).1,
   (claim5_utf8_wire [0x1B, 0xFF] (by decide)).2.1 0xFF (by decide) (by decide)⟩

/-! ## Interface negotiation lemmas (claim C6) -/

theorem find?_range'_spec (p : Nat → Bool) :
    ∀ n s j, (List.range' s n).find? p = some j →
      p j = true ∧ s ≤ j ∧ ∀ k, s ≤ k → k < j → p k = false := by
  intro n
  induction n with
  | zero => intro s j h; simp at h
  | succ n ih =>
    intro s j h
    rw [List.range'_succ] at h
    by_cases hp : p s
    · rw [List.find?_cons_of_pos _ hp] at h
      have hsj : s = j := by simpa using h
      subst hsj
      exact ⟨hp, le_rfl, fun k hk1 hk2 => by omega⟩
    · rw [List.find?_cons_of_neg _ hp] at h
      obtain ⟨hj, hsj, hks⟩ := ih (s + 1) j h
      refine ⟨hj, by omega, fun k hk1 hk2 => ?_⟩
      rcases Nat.eq_or_lt_of_le hk1 with heq | hlt
      · subst heq
        exact Bool.eq_false_iff.mpr hp
      · exact hks k (by omega) hk2

/-- Counterexample to C6 as stated: on a device whose interface 0 is stuck
claimed and whose interface 1 is free but exposes zero OUT endpoints, the
fallback scan still claims interface 1 - the source never tests the
endpoint list it logs. -/
theorem claim6_counterexample :
    negotiate noOutEndpointDevice = (3, [1000, 2000, 3000], some 1) ∧
    (noOutEndpointDevice.getD 1 ⟨false, false, 0⟩).outEndpoints = 0 := by decide

/-- Claim C6 (amended): when interface 0 is reported claimed, the loop runs
exactly 3 iterations with strictly increasing backoff waits 1000, 2000,
3000 ms and then falls back to the ascending scan, which claims the first
interface of index at least 1 that is unclaimed and claimable - endpoints
are not consulted. Negotiation is a total function, so it cannot loop
forever. -/
theorem claim6_negotiation (d : List IfaceInfo) (d0 : IfaceInfo)
    (hhead : d.head? = some d0) (hclaimed : d0.claimed = true) :
    negotiate d = (3, [1000, 2000, 3000], scanFallback d) ∧
    List.Chain' (fun a b => a < b) [1000, 2000, 3000] ∧
    (∀ j, scanFallback d = some j →
      1 ≤ j ∧ (∃ f, d[j]? = some f ∧ f.claimed = false ∧ f.claimOk = true) ∧
      ∀ k f, 1 ≤ k → k < j → d[k]? = some f → (f.claimed = true ∨ f.claimOk = false)) := by
  refine ⟨?_, ?_, ?_⟩
  · simp [negotiate, hhead, claim0Loop, hclaimed]
  · refine List.chain'_cons.mpr ⟨by norm_num, List.chain'_cons.mpr ⟨by norm_num, ?_⟩⟩
    exact List.chain'_singleton 3000
  · intro j hj
    unfold scanFallback at hj
    rw [List.range_eq_range'] at hj
    obtain ⟨hpj, _, hfirst⟩ := find?_range'_spec _ d.length 0 j hj
    rw [Bool.and_eq_true] at hpj
    obtain ⟨hj1, hj2⟩ := hpj
    have hj1' : 1 ≤ j := by simpa using hj1
    refine ⟨hj1', ?_, ?_⟩
    · cases hdj : d[j]? with
      | none => rw [hdj] at hj2; simp at hj2
      | some f =>
        rw [hdj] at hj2
        unfold scanTake at hj2
        rw [Bool.and_eq_true, Bool.not_eq_true'] at hj2
        exact ⟨f, rfl, hj2.1, hj2.2⟩
    · intro k f hk1 hk2 hdk
      have hpk := hfirst k (by omega) hk2
      rw [hdk] at hpk
      unfold scanTake at hpk
      simp only [Bool.and_eq_false_iff, decide_eq_false_iff_not] at hpk
      rcases hpk with hk | hk
      · omega
      · rcases hk with hk | hk
        · left
          simpa using hk
        · right
          exact hk

/-- Witness for C6 on the specification's scenario device: interface 0
claimed, interface 1 free - negotiation runs 3 interface-0 iterations with
waits 1000, 2000, 3000 ms and binds interface 1. -/
theorem claim6_negotiation_witness :
    negotiate busyPrimaryDevice = (3, [1000, 2000, 3000], some 1) := by
  have h := (claim6_negotiation busyPrimaryDevice
    { claimed := true, claimOk := false, outEndpoints := 2 } rfl rfl).1
  rw [h]
  decide

/-- Counterexample to C7 as stated: from a state that has reached the
maximum of 3 reconnection attempts, a drop outside the cooldown resets the
counter to 0 (it is not left at the maximum), and a later drop then
schedules another automatic reconnection attempt (7000 ms), so automatic
attempts do not stop forever after the maximum is reached. -/
theorem claim7_counterexample :
    (handleBluetoothDisconnection 20000 btAtMaxState).1.reconnectAttempts = 0 ∧
    (handleBluetoothDisconnection 20000 btAtMaxState).2 = none ∧
    (handleBluetoothDisconnection 40000
        (handleBluetoothDisconnection 20000 btAtMaxState).1).2 = some 7000 := by
  decide

/-- Claim C7 (amended): a drop inside the 10-second cooldown window is
ignored entirely. Outside the cooldown, while the attempt counter is below
the maximum and a device is known, exactly one reconnection attempt is
scheduled, after `5000 + (attempts+1)*2000` ms - strictly greater than the
previous attempt's backoff. Once the counter reaches the maximum (or no
device is known), no attempt is scheduled, the manual-reconnect button is
shown, and the counter is reset to zero - so a later unsolicited drop
outside the cooldown can start a fresh automatic cycle. -/
theorem claim7_reconnection (s : BTState) (now : Nat) :
    (now - s.lastDisconnectionTime < s.reconnectionCooldown →
      handleBluetoothDisconnection now s = (s, none)) ∧
    (s.reconnectionCooldown ≤ now - s.lastDisconnectionTime →
      s.reconnectAttempts < s.maxReconnectAttempts → s.hasDevice = true →
      handleBluetoothDisconnection now s
        = ({ s with
              lastDisconnectionTime := now
              reconnectAttempts := s.reconnectAttempts + 1 },
           some (5000 + (s.reconnectAttempts + 1) * 2000)) ∧
      5000 + s.reconnectAttempts * 2000 < 5000 + (s.reconnectAttempts + 1) * 2000) ∧
    (s.reconnectionCooldown ≤ now - s.lastDisconnectionTime →
      (s.maxReconnectAttempts ≤ s.reconnectAttempts ∨ s.hasDevice = false) →
      handleBluetoothDisconnection now s
        = ({ s with
              lastDisconnectionTime := now
              reconnectAttempts := 0
              reconnectBtnVisible := true }, none)) := by
  refine ⟨?_, ?_, ?_⟩
  · intro h
    simp only [handleBluetoothDisconnection]
    rw [if_pos h]
  · intro h1 h2 h3
    refine ⟨?_, by omega⟩
    simp only [handleBluetoothDisconnection]
    rw [if_neg (by omega), if_pos ⟨h2, h3⟩]
  · intro h1 h2
    have hcond : ¬ (s.reconnectAttempts < s.maxReconnectAttempts ∧ s.hasDevice = true) := by
      intro hc
      rcases h2 with h | h
      · omega
      · rw [hc.2] at h
        cases h
    simp only [handleBluetoothDisconnection]
    rw [if_neg (by omega), if_neg hcond]

/-- Witness for the amended C7: one drop at 15 s with one prior attempt
schedules exactly one attempt after 9000 ms, strictly more than the
previous 7000 ms backoff. -/
theorem claim7_reconnection_witness :
    handleBluetoothDisconnection 15000
        { reconnectAttempts := 1, maxReconnectAttempts := 3, lastDisconnectionTime := 0,
          reconnectionCooldown := 10000, hasDevice := true, reconnectBtnVisible := false }
      = ({ reconnectAttempts := 2, maxReconnectAttempts := 3, lastDisconnectionTime := 15000,
           reconnectionCooldown := 10000, hasDevice := true, reconnectBtnVisible := false },
         some 9000) ∧
    5000 + 1 * 2000 < 5000 + (1 + 1) * 2000 := by
  have h := (claim7_reconnection
    { reconnectAttempts := 1, maxReconnectAttempts := 3, lastDisconnectionTime := 0,
      reconnectionCooldown := 10000, hasDevice := true, reconnectBtnVisible := false }
    15000).2.1 (by decide) (by decide) rfl
  exact ⟨h.1.trans (by decide), h.2⟩

/-- Counterexample to C8 as stated: starting from the initial state, a
successful Bluetooth connect followed by a successful direct-USB connect
leaves both the GATT server connected and the USB device open - two
transport channels open at once, because neither connect path tears the
other down. -/
theorem claim8_counterexample :
    (connectDirectUSBOk (connectBluetoothOk initialConnState)).btConnected = true ∧
    (connectDirectUSBOk (connectBluetoothOk initialConnState)).usbOpen = true ∧
    openChannels (connectDirectUSBOk (connectBluetoothOk initialConnState)) = 2 := by
  decide

/-- Claim C8 (amended): the controller keeps a single process-wide pair of
connection flags, and `updateConnectionStatus` labels at most one transport
as active at a time (disconnect clears the label). However, starting a new
connect does not tear down a previously open channel: `connectDirectUSB`
leaves the Bluetooth handle untouched and `connectBluetooth` leaves the USB
handle untouched; single-channel operation is enforced only by the UI
disabling the other transport's buttons while connected. -/
theorem claim8_connection_state (s : ConnState) :
    (∀ (c : Bool) (t : Option Transport),
      (updateConnectionStatus c t s).connectionType = if c then t else none) ∧
    (connectDirectUSBOk s).btConnected = s.btConnected ∧
    (connectDirectUSBOk s).usbOpen = true ∧
    (connectDirectUSBOk s).isConnected = true ∧
    (connectDirectUSBOk s).connectionType = some .usb ∧
    (connectBluetoothOk s).usbOpen = s.usbOpen ∧
    (connectBluetoothOk s).btConnected = true ∧
    (connectBluetoothOk s).connectionType = some .bluetooth ∧
    (disconnectUSBFn s).connectionType = (none : Option Transport) ∧
    (disconnectBluetoothFn s).connectionType = (none : Option Transport) := by
  refine ⟨?_, rfl, rfl, rfl, rfl, rfl, rfl, rfl, rfl, rfl⟩
  intro c t
  unfold updateConnectionStatus
  cases c <;> simp

/-- Witness for the amended C8 at the concrete initial state. -/
theorem claim8_connection_state_witness :
    (updateConnectionStatus true (some .usb) initialConnState).connectionType
      = (if true then some Transport.usb else none) ∧
    (connectDirectUSBOk initialConnState).btConnected = initialConnState.btConnected :=
  ⟨(claim8_connection_state initialConnState).1 true (some .usb),
   (claim8_connection_state initialConnState).2.1⟩

/-- Counterexample to C9 as stated: a fully transparent pixel pushed through
the direct-USB print path (`printImageViaUSB` clears the canvas, leaving
RGBA all 0, and `convertToMonochrome` ignores alpha) is encoded as black
ink: the single payload byte of the Brady stream is 0x80, bit 7 set. -/
theorem claim9_counterexample :
    convertToBradyBitmap transparentPixelImg
      = some [0x1B, 0x40, 0x1B, 0x69, 0x47, 1, 0, 1, 0, 0x80,
              0x1B, 0x69, 0x45, 0x1B, 0x69, 0x50] ∧
    Nat.testBit 0x80 7 = true := by
  refine ⟨?_, by decide⟩
  decide

/-- Claim C9 (amended): in the dataprocess pipeline (`convertImageToBitmap`)
the raster is scaled to fit 384 by 300 with one common scale factor (aspect
ratio preserved) and composited over an opaque white fill, so a fully
transparent pixel becomes white (255,255,255) and is encoded as bit 0; the
direct-USB path (`printImageViaUSB`) instead draws at natural size onto a
cleared, transparent canvas and `convertToMonochrome` ignores alpha, so a
fully transparent pixel (RGB all 0) is encoded as black ink there. -/
theorem claim9_scaling_whitefill (w h : Nat) (hw : 0 < w) (hh : 0 < h) :
    ((scaledDims w h).1 ≤ 384 ∧ (scaledDims w h).2 ≤ 300) ∧
    (∃ sc : ℚ, 0 < sc ∧
      scaledDims w h = (((w : ℚ) * sc).floor.toNat, ((h : ℚ) * sc).floor.toNat)) ∧
    (∀ c : Nat, compositeOverWhite c 0 = 255) ∧
    (∀ img x y,
      img.data ((y * img.width + x) * 4) = 255 →
      img.data ((y * img.width + x) * 4 + 1) = 255 →
      img.data ((y * img.width + x) * 4 + 2) = 255 →
      isBlackDP img x y = false) ∧
    (∀ img i, i % 4 = 0 →
      img.data i = 0 → img.data (i + 1) = 0 → img.data (i + 2) = 0 →
      (convertToMonochrome img).data i = 0) := by
  have hwq : (0 : ℚ) < (w : ℚ) := by exact_mod_cast hw
  have hhq : (0 : ℚ) < (h : ℚ) := by exact_mod_cast hh
  have hscpos : 0 < scaleFactor w h := by
    unfold scaleFactor
    apply lt_min
    · exact div_pos (by norm_num) hwq
    · exact div_pos (by norm_num) hhq
  refine ⟨⟨?_, ?_⟩, ⟨scaleFactor w h, hscpos, rfl⟩, ?_, ?_, ?_⟩
  · have hle : (w : ℚ) * scaleFactor w h ≤ 384 := by
      have h1 : scaleFactor w h ≤ (384 : ℚ) / w := min_le_left _ _
      have h2 : (w : ℚ) * ((384 : ℚ) / w) = 384 := by
        field_simp
      calc (w : ℚ) * scaleFactor w h ≤ (w : ℚ) * ((384 : ℚ) / w) :=
            mul_le_mul_of_nonneg_left h1 (le_of_lt hwq)
        _ = 384 := h2
    have hfl : ((w : ℚ) * scaleFactor w h).floor ≤ (384 : ℤ) := by
      have := Int.floor_le_floor hle
      simpa using this
    exact Int.toNat_le.mpr hfl
  · have hle : (h : ℚ) * scaleFactor w h ≤ 300 := by
      have h1 : scaleFactor w h ≤ (300 : ℚ) / h := min_le_right _ _
      have h2 : (h : ℚ) * ((300 : ℚ) / h) = 300 := by
        field_simp
      calc (h : ℚ) * scaleFactor w h ≤ (h : ℚ) * ((300 : ℚ) / h) :=
            mul_le_mul_of_nonneg_left h1 (le_of_lt hhq)
        _ = 300 := h2
    have hfl : ((h : ℚ) * scaleFactor w h).floor ≤ (300 : ℤ) := by
      have := Int.floor_le_floor hle
      simpa using this
    exact Int.toNat_le.mpr hfl
  · intro c
    unfold compositeOverWhite
    norm_num
  · intro img x y h1 h2 h3
    unfold isBlackDP grayscaleAvg
    simp only [h1, h2, h3]
    norm_num
  · intro img i h0 h1 h2 h3
    have hp : 4 * (i / 4) = i := by omega
    have hgray : grayRound (img.data (4 * (i / 4))) (img.data (4 * (i / 4) + 1))
        (img.data (4 * (i / 4) + 2)) = 0 := by
      rw [hp, h1, h2, h3]
      decide
    simp [convertToMonochrome, h0, hgray]

/-- Witness for the amended C9 at a 1-by-1 raster and the transparent
pixel: the scaled canvas fits the printable area, a white pixel is not ink
in the dataprocess pipeline, and the transparent pixel becomes monochrome
value 0 (ink) in the USB pipeline. -/
theorem claim9_scaling_whitefill_witness :
    ((scaledDims 1 1).1 ≤ 384 ∧ (scaledDims 1 1).2 ≤ 300) ∧
    (convertToMonochrome transparentPixelImg).data 0 = 0 :=
  ⟨(claim9_scaling_whitefill 1 1 (by decide) (by decide)).1,
   (claim9_scaling_whitefill 1 1 (by decide) (by decide)).2.2.2.2
     transparentPixelImg 0 (by decide) rfl rfl rfl⟩

/-- Claim C10: the `printImage` gate checks the current file and the
connection flag before any transport attempt; with no current file (the
converted image is not consulted) the outcome is the no-file precondition
error and no transport call is made, and with no connection the outcome is
the not-connected precondition error, again with no transport call. -/
theorem claim10_print_preconditions :
    (∀ hasImg conn, printImageActions false hasImg conn = ([.log], .noFileError)) ∧
    (∀ hasFile hasImg,
      (printImageActions hasFile hasImg false).1.count .transportAttempt = 0) ∧
    (∀ hasFile hasImg conn,
      (printImageActions hasFile hasImg conn).2 ≠ .proceed →
      (printImageActions hasFile hasImg conn).1.count .transportAttempt = 0) := by
  refine ⟨?_, ?_, ?_⟩
  · intro hasImg conn
    cases hasImg <;> cases conn <;> decide
  · intro hasFile hasImg
    cases hasFile <;> cases hasImg <;> decide
  · intro hasFile hasImg conn
    cases hasFile <;> cases hasImg <;> cases conn <;> decide

/-- Witness for C10: executing Print with no current file, no converted
image and no connection makes no transport call. -/
theorem claim10_print_preconditions_witness :
    printImageActions false false false = ([.log], .noFileError) ∧
    (printImageActions false false false).1.count .transportAttempt = 0 :=
  ⟨(claim10_print_preconditions).1 false false,
   (claim10_print_preconditions).2.2 false false false (by decide)⟩

end M511
